import Mathlib

/-!
Shallow embedding of the call-and-stream correlation core of sngrep
(`src/storage.c`).  The storage state (`sip_call_list_t calls`) is made an
explicit value `Storage`; the C functions of `storage.c` are translated one
by one, keeping their names.  Heap objects (calls) live in an association
list keyed by an allocation id, so that the three containers of the store
(`calls.list`, `calls.active`, `calls.callids`) can alias the same call
object exactly as the C pointers do.  Functions of the repository that are
not part of `src/` (call.c, stream.c, the dissectors) are modelled from the
specification and marked as such in their doc comments.
-/

namespace Sngrep

/-- A network endpoint `(ip, port)` (C type `Address`). -/
structure Address where
  ip : String
  port : Nat
deriving DecidableEq, Repr

/-- The zero-valued `Address emptyaddr = {}` used by `storage.c`. -/
def emptyAddr : Address := ⟨"", 0⟩

/-- Stream kind tag (`PACKET_RTP` / `PACKET_RTCP` stored in `stream->type`). -/
inductive StreamType
  | rtp
  | rtcp
deriving DecidableEq, Repr

/-- One SDP media descriptor (`PacketSdpMedia`): advertised address, RTP and
optional RTCP ports (0 = absent) and the list of advertised payload
formats.  Modelled from the spec: §6 `PacketSdp` inputs; the media's
address carries the advertised RTP port. -/
structure SdpMedia where
  addrIp : String
  rtpport : Nat
  rtcpport : Nat
  fmts : List Nat
deriving DecidableEq, Repr

/-- The `Address` stored in `media->address`: the advertised ip at the
advertised RTP port (spec §4.5bis(i): `dst = media.address:media.rtpport`). -/
def mediaAddress (m : SdpMedia) : Address := ⟨m.addrIp, m.rtpport⟩

/-- One RTP/RTCP flow (`rtp_stream_t`).  `sid` is the allocation identity of
the stream object, `callRef` the allocation id of the owning call (the C
code reaches it through `stream->msg->call` / `msg_get_call(stream->msg)`). -/
structure RtpStream where
  sid : Nat
  callRef : Nat
  typ : StreamType
  src : Address
  dst : Address
  complete : Bool
  fmtcode : Nat
  pktCount : Nat
  media : SdpMedia
deriving DecidableEq, Repr

/-- Modelled from the spec: `stream_create(packet, media)` (§4.3, §4.5bis(i),
not under `src/`): a fresh RTP stream for `media` whose destination is the
media's advertised endpoint and whose source is still unknown. -/
def stream_create (media : SdpMedia) (callRef sid : Nat) : RtpStream :=
  { sid := sid
    callRef := callRef
    typ := StreamType.rtp
    src := emptyAddr
    dst := mediaAddress media
    complete := false
    fmtcode := 0
    pktCount := 0
    media := media }

/-- Modelled from the spec: `stream_complete(stream, src)` is idempotent; it
sets the source endpoint and flips `complete` only on its first call (§4.3). -/
def stream_complete (s : RtpStream) (a : Address) : RtpStream :=
  if s.complete then s else { s with src := a, complete := true }

/-- Modelled from the spec: `stream_set_format` (§4.3). -/
def stream_set_format (s : RtpStream) (f : Nat) : RtpStream :=
  { s with fmtcode := f }

/-- Modelled from the spec: `stream_add_packet` updates the packet counter
(§4.3; timestamps are not needed by any claim). -/
def stream_add_packet (s : RtpStream) : RtpStream :=
  { s with pktCount := s.pktCount + 1 }

/-- `stream_is_complete`. -/
def stream_is_complete (s : RtpStream) : Bool := s.complete

/-- SIP method codes referred to by `storage.c`.  Modelled from the spec:
responses occupy 0..999 and method tags a band above them (§3); only the
relative order of the tags matters to the storage code. -/
def SIP_METHOD_INVITE : Nat := 1003

/-- See `SIP_METHOD_INVITE`. -/
def SIP_METHOD_MESSAGE : Nat := 1008

/-- See `SIP_METHOD_INVITE`. -/
def SIP_METHOD_CANCEL : Nat := 1009

/-- See `SIP_METHOD_INVITE`. -/
def SIP_METHOD_BYE : Nat := 1010

/-- INVITE dialog state of a call.  `initial` is the state of a call object
before its first message has been fed to the state machine. -/
inductive CallState
  | initial
  | setup
  | inCall
  | completed
  | cancelled
  | rejected
  | busy
  | diverted
deriving DecidableEq, Repr

/-- One parsed SIP message (`SipMsg`): the fields `storage_check_sip_packet`
copies out of `PacketSipData`, plus the `medias` sequence filled by
`storage_register_streams` and the retransmission flag. -/
structure SipMsg where
  cseq : Nat
  sip_from : String
  sip_to : String
  reqresp : Nat
  resp_str : String
  payload : String
  retrans : Bool
  medias : List SdpMedia
deriving DecidableEq, Repr

/-- One call (`SipCall`): identity, cross-dialog id, monotonic index, user
lock, dialog state, owned messages and streams, and xcall children. -/
structure SipCall where
  callid : String
  xcallid : String
  index : Nat
  locked : Bool
  state : CallState
  msgs : List SipMsg
  streams : List RtpStream
  xcalls : List Nat
deriving DecidableEq, Repr

/-- `call_msg_count`. -/
def call_msg_count (c : SipCall) : Nat := c.msgs.length

/-- Modelled from the spec: `call_is_invite` (call.c, not under `src/`) —
true iff the first accepted message is an INVITE (§4.4). -/
def call_is_invite (c : SipCall) : Bool :=
  match c.msgs with
  | [] => false
  | m :: _ => m.reqresp == SIP_METHOD_INVITE

/-- Modelled from the spec: `call_is_active` (call.c, not under `src/`) —
the source checks only the dialog state: active iff the state is
CALL_SETUP or IN_CALL (§4.4, design note 2). -/
def call_is_active (c : SipCall) : Bool :=
  c.state == CallState.setup || c.state == CallState.inCall

/-- Whether a dialog state is terminal (sticky, §4.4). -/
def stateTerminal (s : CallState) : Bool :=
  match s with
  | CallState.completed => true
  | CallState.cancelled => true
  | CallState.rejected => true
  | CallState.busy => true
  | CallState.diverted => true
  | _ => false

/-- Modelled from the spec: `call_update_state` (call.c, not under `src/`) —
the INVITE state machine of §4.4: initial CALL_SETUP on INVITE, 1xx keeps
it, 200 enters IN_CALL, 3xx diverts, 486 is busy, other 4xx reject, BYE
from IN_CALL completes, CANCEL before 200 cancels; terminal states stick. -/
def call_update_state (c : SipCall) (m : SipMsg) : SipCall :=
  if stateTerminal c.state then c
  else if m.reqresp == SIP_METHOD_INVITE then { c with state := CallState.setup }
  else if m.reqresp < 1000 then
    if 100 ≤ m.reqresp && m.reqresp ≤ 199 then c
    else if m.reqresp == 200 then { c with state := CallState.inCall }
    else if 300 ≤ m.reqresp && m.reqresp ≤ 399 then { c with state := CallState.diverted }
    else if m.reqresp == 486 then { c with state := CallState.busy }
    else if 400 ≤ m.reqresp && m.reqresp ≤ 499 then { c with state := CallState.rejected }
    else c
  else if m.reqresp == SIP_METHOD_BYE && c.state == CallState.inCall then
    { c with state := CallState.completed }
  else if m.reqresp == SIP_METHOD_CANCEL && c.state == CallState.setup then
    { c with state := CallState.cancelled }
  else c

/-- Modelled from the spec: `call_find_stream_exact` (call.c, not under
`src/`) — look up a stream of the call by literal equality of source and
destination endpoints (`addressport_equals` on both, §4.3/§4.4). -/
def call_find_stream_exact (c : SipCall) (src dst : Address) : Option RtpStream :=
  c.streams.find? (fun s => s.src == src && s.dst == dst)

/-- Modelled from the spec: `call_find_stream` (call.c, not under `src/`) —
like the exact lookup, but a zero-valued source endpoint also matches the
pre-registration state where only the destination is known (§4.4). -/
def call_find_stream (c : SipCall) (src dst : Address) : Option RtpStream :=
  match call_find_stream_exact c src dst with
  | some s => some s
  | none => if src == emptyAddr then c.streams.find? (fun s => s.dst == dst) else none

/-- Modelled from the spec: `call_msg_retrans_check` (call.c, not under
`src/`) — the just-added message is flagged as a retransmission iff the
previously inserted message with the same `(cseq, reqresp)` carries an
identical payload (§4.4). -/
def call_msg_retrans_check (c : SipCall) : SipCall :=
  match c.msgs.getLast? with
  | none => c
  | some m =>
    let prev := c.msgs.dropLast.filter (fun m2 => m2.cseq == m.cseq && m2.reqresp == m.reqresp)
    let flag :=
      match prev.getLast? with
      | some m2 => m2.payload == m.payload
      | none => false
    { c with msgs := c.msgs.dropLast ++ [{ m with retrans := flag }] }

/-- Capture options `SStorageCaptureOpts` (only `limit` is read by the
translated code). -/
structure CaptureOpts where
  limit : Nat
deriving DecidableEq, Repr

/-- Match options `SStorageMatchOpts`: pattern (`mexpr`), case flag,
inversion flag and the invite-only / complete-only admission dials.  The
compiled regex `mregex` is kept outside the state as a matching oracle
`String → String → Bool` (pattern, payload), since regex evaluation is
GLib's, not this repository's. -/
structure MatchOpts where
  mexpr : Option String
  micase : Bool
  minvert : Bool
  invite : Bool
  complete : Bool
deriving DecidableEq, Repr

/-- The storage singleton `sip_call_list_t calls`: the call heap (allocation
id → call object), the ordered list `calls.list`, the active list
`calls.active`, the Call-ID hash `calls.callids`, the counters and the
options.  `nextId`/`nextSid` model the allocator for call and stream
objects. -/
structure Storage where
  heap : List (Nat × SipCall)
  listIds : List Nat
  activeIds : List Nat
  hids : List (String × Nat)
  lastIndex : Nat
  nextId : Nat
  nextSid : Nat
  changed : Bool
  capture : CaptureOpts
  mopts : MatchOpts
deriving DecidableEq, Repr

/-- Dereference a call pointer (allocation id). -/
def heapGet (st : Storage) (cid : Nat) : Option SipCall :=
  (st.heap.find? (fun e => e.1 == cid)).map (fun e => e.2)

/-- Mutate the call object behind an allocation id. -/
def heapSet (st : Storage) (cid : Nat) (f : SipCall → SipCall) : Storage :=
  { st with heap := st.heap.map (fun e => if e.1 == cid then (e.1, f e.2) else e) }

/-- Remove a key from the Call-ID hash (`g_hash_table_remove`). -/
def removeKey (h : List (String × Nat)) (k : String) : List (String × Nat) :=
  h.filter (fun e => !(e.1 == k))

/-- Insert a key into the Call-ID hash (`g_hash_table_insert` replaces any
previous entry for the key). -/
def hidsInsert (h : List (String × Nat)) (k : String) (v : Nat) : List (String × Nat) :=
  removeKey h k ++ [(k, v)]

/-- `storage_find_by_callid`: `g_hash_table_lookup(calls.callids, callid)`. -/
def storage_find_by_callid (st : Storage) (callid : String) : Option Nat :=
  (st.hids.find? (fun e => e.1 == callid)).map (fun e => e.2)

/-- `storage_calls_count`: `g_sequence_get_length(calls.list)`. -/
def storage_calls_count (st : Storage) : Nat := st.listIds.length

/-- `storage_call_is_active`: `g_sequence_index(calls.active, call) != -1`. -/
def storage_call_is_active (st : Storage) (cid : Nat) : Bool :=
  st.activeIds.contains cid

/-- `storage_calls_changed`: returns the changed flag and clears it. -/
def storage_calls_changed (st : Storage) : Storage × Bool :=
  ({ st with changed := false }, st.changed)

/-- `storage_check_match_expr(payload)`: everything matches when no
expression is configured; otherwise accept depending on the regex result
and the inversion flag (`0 == minvert` / `1 == minvert`).  `rx` is the
compiled-regex oracle. -/
def storage_check_match_expr (rx : String → String → Bool) (st : Storage) (payload : String) : Bool :=
  match st.mopts.mexpr with
  | none => true
  | some e => if rx e payload then !st.mopts.minvert else st.mopts.minvert

/-- The loop body of `storage_calls_rotate`: scan the iterator over
`calls.list` in order; at the first call whose `locked` flag is unset,
remove it from the Call-ID hash, the active list and the call list (the
list's destroy notify frees the call object, hence the heap removal). -/
def rotateScan (st : Storage) : List Nat → Storage
  | [] => st
  | cid :: rest =>
    match heapGet st cid with
    | none => rotateScan st rest
    | some c =>
      if c.locked then rotateScan st rest
      else
        { st with
          heap := st.heap.filter (fun e => !(e.1 == cid))
          hids := removeKey st.hids c.callid
          activeIds := st.activeIds.erase cid
          listIds := st.listIds.erase cid }

/-- `storage_calls_rotate`. -/
def storage_calls_rotate (st : Storage) : Storage :=
  rotateScan st st.listIds

/-- The dissected SIP packet handed to `storage_check_sip_packet`
(`PacketSipData` plus the packet's source endpoint and attached SDP). -/
structure SipPacketIn where
  callid : String
  xcallid : String
  cseq : Nat
  sip_from : String
  sip_to : String
  reqresp : Nat
  resp_str : String
  payload : String
  src : Address
  sdp : Option (List SdpMedia)
deriving DecidableEq, Repr

/-- `call_add_stream` (call.c, not under `src/`): append a stream to the
call's stream vector.  Modelled from the spec (§4.4). -/
def addStreamToCall (st : Storage) (cid : Nat) (s : RtpStream) : Storage :=
  heapSet st cid (fun c => { c with streams := c.streams ++ [s] })

/-- Append a media descriptor to the `medias` sequence of the call's last
message (`g_sequence_append(msg->medias, media)`; `register_streams` runs
just after `call_add_message`, so the registering message is the last one). -/
def appendMediaToLastMsg (c : SipCall) (media : SdpMedia) : SipCall :=
  match c.msgs.getLast? with
  | none => c
  | some m => { c with msgs := c.msgs.dropLast ++ [{ m with medias := m.medias ++ [media] }] }

/-- storage.c lines 411-417: create the RTP stream for this media if the
call has none towards the advertised address. -/
def registerMediaRtp (st : Storage) (cid : Nat) (media : SdpMedia) : Storage :=
  match heapGet st cid with
  | none => st
  | some c =>
    if (call_find_stream c emptyAddr (mediaAddress media)).isNone then
      let s := { stream_create media cid st.nextSid with typ := StreamType.rtp }
      { addStreamToCall st cid s with nextSid := st.nextSid + 1 }
    else st

/-- storage.c lines 419-426: create the RTCP stream for this media if the
call has none towards the advertised address (sic: the guard re-checks the
same key as the RTP block), with the RTCP port or rtpport+1 (guint16). -/
def registerMediaRtcp (st : Storage) (cid : Nat) (media : SdpMedia) : Storage :=
  match heapGet st cid with
  | none => st
  | some c =>
    if (call_find_stream c emptyAddr (mediaAddress media)).isNone then
      let s0 := stream_create media cid st.nextSid
      let s := { s0 with
                 dst := { s0.dst with
                          port := if media.rtcpport ≠ 0 then media.rtcpport
                                  else (media.rtpport + 1) % 65536 }
                 typ := StreamType.rtcp }
      { addStreamToCall st cid s with nextSid := st.nextSid + 1 }
    else st

/-- storage.c lines 428-436: create the RTP stream whose destination is the
signaling source at the media's RTP port. -/
def registerMediaSrc (st : Storage) (cid : Nat) (msgSrc : Address) (media : SdpMedia) : Storage :=
  match heapGet st cid with
  | none => st
  | some c =>
    if (call_find_stream c msgSrc (mediaAddress media)).isNone then
      let s0 := stream_create media cid st.nextSid
      let s := { s0 with
                 dst := { msgSrc with port := media.rtpport }
                 typ := StreamType.rtp }
      { addStreamToCall st cid s with nextSid := st.nextSid + 1 }
    else st

/-- The loop body of `storage_register_streams` for one media descriptor:
append it to the message, then the three guarded stream creations of
storage.c lines 411-436. -/
def registerMedia (st : Storage) (cid : Nat) (msgSrc : Address) (media : SdpMedia) : Storage :=
  let st := heapSet st cid (fun c => appendMediaToLastMsg c media)
  let st := registerMediaRtp st cid media
  let st := registerMediaRtcp st cid media
  registerMediaSrc st cid msgSrc media

/-- `storage_register_streams(msg)`: nothing without SDP, else the loop over
the media descriptors. -/
def storage_register_streams (st : Storage) (cid : Nat) (msgSrc : Address)
    (sdp : Option (List SdpMedia)) : Storage :=
  match sdp with
  | none => st
  | some medias => medias.foldl (fun st media => registerMedia st cid msgSrc media) st

/-- Modelled from the spec: the sort comparator `storage_sorter`; the
default (and only) configuration used here is CALLINDEX ascending (§4.1),
so `g_sequence_insert_sorted` inserts ordered by the call index. -/
def insertSortedAux (key : Nat → Nat) (cid : Nat) : List Nat → List Nat
  | [] => [cid]
  | x :: xs => if key cid < key x then cid :: x :: xs else x :: insertSortedAux key cid xs

/-- The call index behind an allocation id (0 for a dangling id). -/
def callIndexOf (st : Storage) (cid : Nat) : Nat :=
  match heapGet st cid with
  | some c => c.index
  | none => 0

/-- `g_sequence_insert_sorted(calls.list, call, storage_sorter, NULL)`. -/
def insertSorted (st : Storage) (cid : Nat) : List Nat :=
  insertSortedAux (callIndexOf st) cid st.listIds

/-- storage.c lines 177-183: link the call as an xcall child when it has no
messages yet and its X-Call-Id resolves. -/
def acceptXcall (st : Storage) (cid : Nat) : Storage :=
  -- Always dissect first call message: xcall linkage
  match heapGet st cid with
  | none => st
  | some c =>
    if call_msg_count c == 0 && c.xcallid ≠ "" then
      match storage_find_by_callid st c.xcallid with
      | some pid => heapSet st pid (fun pc => { pc with xcalls := pc.xcalls ++ [cid] })
      | none => st
    else st

/-- storage.c lines 196-205: recompute active-list presence after the state
update (note the guard of the append: the call must ALREADY be present). -/
def acceptActive (st : Storage) (cid : Nat) : Storage :=
  match heapGet st cid with
  | none => st
  | some c2 =>
    if call_is_active c2 then
      if storage_call_is_active st cid then
        { st with activeIds := st.activeIds ++ [cid] }
      else st
    else
      if storage_call_is_active st cid then
        { st with activeIds := st.activeIds.erase cid }
      else st

/-- storage.c lines 191-206: the INVITE branch — stream registration, state
update and active-list juggling. -/
def acceptInvite (st : Storage) (cid : Nat) (p : SipPacketIn) (msg : SipMsg) : Storage :=
  match heapGet st cid with
  | none => st
  | some c =>
    if call_is_invite c then
      let st := storage_register_streams st cid p.src p.sdp
      let st := heapSet st cid (fun c => call_update_state c msg)
      acceptActive st cid
    else st

/-- storage.c lines 174-206: the mutation chain of `storage_check_sip_packet`
once the call (of allocation id `cid`) is known: xcall linkage on the first
message, `call_add_message`, the retransmission check and the INVITE
branch. -/
def acceptSteps (st : Storage) (cid : Nat) (p : SipPacketIn) (msg : SipMsg) : Storage :=
  let st := acceptXcall st cid
  -- call_add_message
  let st := heapSet st cid (fun c => { c with msgs := c.msgs ++ [msg] })
  -- call_msg_retrans_check
  let st := heapSet st cid call_msg_retrans_check
  acceptInvite st cid p msg

/-- See `acceptSteps`; the sorted insertion of a new call and the change
flag close the accepted path. -/
def processAccepted (st : Storage) (cid : Nat) (p : SipPacketIn) (msg : SipMsg)
    (newcall : Bool) : Storage × Option SipMsg :=
  let st := acceptSteps st cid p msg
  let st := if newcall then { st with listIds := insertSorted st cid } else st
  ({ st with changed := true }, some msg)

/-- `storage_check_sip_packet(packet)`.  `rx` is the compiled-regex oracle
and `allocOk` whether `call_create` succeeds (it is fallible in the
source); on any skip path the tentative message is destroyed and `none`
returned. -/
def storage_check_sip_packet (rx : String → String → Bool) (st : Storage)
    (p : SipPacketIn) (allocOk : Bool) : Storage × Option SipMsg :=
  let msg : SipMsg :=
    { cseq := p.cseq, sip_from := p.sip_from, sip_to := p.sip_to,
      reqresp := p.reqresp, resp_str := p.resp_str, payload := p.payload,
      retrans := false, medias := [] }
  match storage_find_by_callid st p.callid with
  | some cid => processAccepted st cid p msg false
  | none =>
    -- Check if payload matches expression
    if !storage_check_match_expr rx st p.payload then (st, none)
    -- User requested only INVITE starting dialogs
    else if st.mopts.invite && p.reqresp ≠ SIP_METHOD_INVITE then (st, none)
    -- Only create a new call if the first msg is a request in the group
    else if st.mopts.complete && decide (p.reqresp > SIP_METHOD_MESSAGE) then (st, none)
    else
      -- Rotate call list if limit has been reached
      let st1 := if st.capture.limit == storage_calls_count st then storage_calls_rotate st else st
      -- Create the call if not found
      if !allocOk then (st1, none)
      else
        let cid := st1.nextId
        let call : SipCall :=
          { callid := p.callid, xcallid := p.xcallid, index := st1.lastIndex + 1,
            locked := false, state := CallState.initial, msgs := [], streams := [],
            xcalls := [] }
        let st2 :=
          { st1 with
            heap := st1.heap ++ [(cid, call)]
            hids := hidsInsert st1.hids p.callid cid
            lastIndex := st1.lastIndex + 1
            nextId := cid + 1 }
        processAccepted st2 cid p msg true

/-- The user pinning a call (setting `call->locked`); not a storage.c entry
point but the only external mutation the claims quantify over. -/
def lockCall (st : Storage) (callid : String) : Storage :=
  match storage_find_by_callid st callid with
  | some cid => heapSet st cid (fun c => { c with locked := true })
  | none => st

/-- An event of the store's life: a SIP ingestion or a user lock. -/
inductive StoreEvent
  | sip (p : SipPacketIn) (allocOk : Bool)
  | lock (callid : String)
deriving Repr

/-- Run a sequence of events. -/
def runEvents (rx : String → String → Bool) (st : Storage) : List StoreEvent → Storage
  | [] => st
  | e :: es =>
    let st' :=
      match e with
      | StoreEvent.sip p ok => (storage_check_sip_packet rx st p ok).1
      | StoreEvent.lock callid => lockCall st callid
    runEvents rx st' es

/-- The packet handed to `storage_check_rtp_packet`: endpoints and the
dissector proto slots.  The source indexes `packet->newpacket->proto` at
`PACKET_RTP` for BOTH its `rtp` and `rtcp` locals (lines 251 and 321);
`protoRtp` is that slot (holding the RTP encoding id) and `protoRtcp` is
the `PACKET_RTCP` slot, which the translated code consequently never
reads. -/
structure RtpPacketIn where
  src : Address
  dst : Address
  protoRtp : Option Nat
  protoRtcp : Option Nat
deriving DecidableEq, Repr

/-- All streams of the store, scanning the calls of `calls.list` in order. -/
def storageStreams (st : Storage) : List RtpStream :=
  ((st.listIds.filterMap (fun cid => heapGet st cid)).map (fun c => c.streams)).flatten

/-- Dereference a stream pointer (allocation id). -/
def getStream (st : Storage) (sid : Nat) : Option RtpStream :=
  (storageStreams st).find? (fun s => s.sid == sid)

/-- Mutate the stream object behind an allocation id. -/
def updStream (st : Storage) (sid : Nat) (f : RtpStream → RtpStream) : Storage :=
  { st with
    heap := st.heap.map (fun e =>
      (e.1, { e.2 with streams := e.2.streams.map (fun s => if s.sid == sid then f s else s) })) }

/-- Modelled from the spec: `stream_find_by_format(src, dst, format)`
(rtp.c, not under `src/`) — global lookup across all calls' streams keyed
by the endpoint pair and the format (§4.6 `ingest_rtp` step 2): a stream
matches when its destination is `dst`, its source is `src` or still
unset, and the format is the stream's current one or advertised by its
media descriptor. -/
def stream_find_by_format (st : Storage) (src dst : Address) (f : Nat) : Option RtpStream :=
  (storageStreams st).find? (fun s =>
    s.dst == dst && (s.src == src || !s.complete) &&
      (s.fmtcode == f || s.media.fmts.contains f))

/-- storage.c lines 256-314: stream resolution for an RTP payload of format
`format`: the global lookup, the new-stream-for-a-new-format branch, and
the first-packet branch that completes the stream and applies the
reverse-stream heuristic.  Returns the updated store and the allocation id
of the resolved stream, or `none` when no stream matches. -/
def rtpResolvePhase (st : Storage) (psrc pdst : Address) (format : Nat) :
    Option (Storage × Nat) :=
  match stream_find_by_format st psrc pdst format with
  | none => none
  | some s0 =>
    -- We have found a stream, but with different format
    let stsid : Storage × Nat :=
      if stream_is_complete s0 && decide (s0.fmtcode ≠ format) then
        let ns := stream_set_format (stream_complete (stream_create s0.media s0.callRef st.nextSid) psrc) format
        ({ addStreamToCall st s0.callRef ns with nextSid := st.nextSid + 1 }, ns.sid)
      else (st, s0.sid)
    let st1 := stsid.1
    let sid := stsid.2
    -- First packet for this stream, set source data
    let st2 :=
      match getStream st1 sid with
      | none => st1
      | some s =>
        if stream_is_complete s then st1
        else
          let st := updStream st1 sid (fun s => stream_set_format (stream_complete s psrc) format)
          match getStream st sid, heapGet st s.callRef with
          | some s2, some c =>
            -- Check if an stream in the opposite direction exists
            (match call_find_stream c s2.dst s2.src with
             | none =>
               let rv := stream_set_format (stream_complete (stream_create s2.media s2.callRef st.nextSid) s2.dst) format
               { addStreamToCall st s2.callRef rv with nextSid := st.nextSid + 1 }
             | some reverse =>
               -- If the reverse stream has other source configured
               if reverse.src.port ≠ 0 && !(s2.src == reverse.src) then
                 match call_find_stream_exact c s2.dst s2.src with
                 | none =>
                   let rv := stream_set_format (stream_complete (stream_create s2.media s2.callRef st.nextSid) s2.dst) format
                   { addStreamToCall st s2.callRef rv with nextSid := st.nextSid + 1 }
                 | some _ => st
               else st)
          | _, _ => st
    some (st2, sid)

/-- `storage_check_rtp_packet(packet)`.  The `rtp` local is the
`PACKET_RTP` proto slot; after the RTP branch the `rtcp` local reads the
SAME slot (line 321), so when it is non-null the already-resolved stream
is completed again with the packet source and receives the packet a second
time, and when the slot is null the function returns NULL (with the RTP
branch never entered, the uninitialised `stream` local is never read). -/
def storage_check_rtp_packet (st : Storage) (p : RtpPacketIn) : Storage × Option Nat :=
  match p.protoRtp with
  | none => (st, none)
  | some format =>
    match rtpResolvePhase st p.src p.dst format with
    | none => (st, none)
    | some (st1, sid) =>
      -- Add packet to stream (line 317)
      let st2 := updStream st1 sid stream_add_packet
      -- rtcp(= the PACKET_RTP slot) is non-null here (lines 321-325)
      let st3 := updStream st2 sid (fun s => stream_complete s p.src)
      let st4 := updStream st3 sid stream_add_packet
      (st4, some sid)

/-! ### Concrete fixtures used by the theorems below -/

/-- A regex oracle under which nothing matches (no expression is configured
in the fixtures that use it, so it is never consulted). -/
def rxNone : String → String → Bool := fun _ _ => false

/-- A freshly initialised store with a large capture limit and no match
restrictions. -/
def stInit : Storage :=
  { heap := [], listIds := [], activeIds := [], hids := [], lastIndex := 0,
    nextId := 0, nextSid := 0, changed := false,
    capture := { limit := 100 },
    mopts := { mexpr := none, micase := false, minvert := false,
               invite := false, complete := false } }

/-- The same store with `capture.limit = 1`. -/
def stLimitOne : Storage :=
  { stInit with capture := { limit := 1 } }

/-- An INVITE for dialog `X` advertising media at `10.0.0.1:16000`, sent
from `10.0.0.9:5060` (spec scenario 3). -/
def pInviteX : SipPacketIn :=
  { callid := "X", xcallid := "", cseq := 1, sip_from := "alice", sip_to := "bob",
    reqresp := SIP_METHOD_INVITE, resp_str := "", payload := "INVITE X",
    src := ⟨"10.0.0.9", 5060⟩,
    sdp := some [{ addrIp := "10.0.0.1", rtpport := 16000, rtcpport := 0, fmts := [0] }] }

/-- The store after ingesting `pInviteX` into a fresh store. -/
def stAfterX : Storage := (storage_check_sip_packet rxNone stInit pInviteX true).1

/-- The first RTP packet of spec scenario 3: `10.0.0.2:24000 → 10.0.0.1:16000`
with payload type 0. -/
def pRtpScenario : RtpPacketIn :=
  { src := ⟨"10.0.0.2", 24000⟩, dst := ⟨"10.0.0.1", 16000⟩,
    protoRtp := some 0, protoRtcp := none }

/-- The store after the RTP packet of scenario 3. -/
def stAfterRtp : Storage := (storage_check_rtp_packet stAfterX pRtpScenario).1

/-- An INVITE for dialog `Y` whose SDP advertises `1.2.3.4:8000` with an
explicit RTCP port 9000. -/
def pInviteY : SipPacketIn :=
  { callid := "Y", xcallid := "", cseq := 1, sip_from := "alice", sip_to := "bob",
    reqresp := SIP_METHOD_INVITE, resp_str := "", payload := "INVITE Y",
    src := ⟨"9.9.9.9", 5060⟩,
    sdp := some [{ addrIp := "1.2.3.4", rtpport := 8000, rtcpport := 9000, fmts := [8] }] }

/-- The store after ingesting `pInviteY` into a fresh store. -/
def stAfterY : Storage := (storage_check_sip_packet rxNone stInit pInviteY true).1

/-- Media-less INVITE packets for dialogs `A` and `B`. -/
def pInviteA : SipPacketIn := { pInviteX with callid := "A", payload := "INVITE A", sdp := none }

/-- See `pInviteA`. -/
def pInviteB : SipPacketIn := { pInviteX with callid := "B", payload := "INVITE B", sdp := none }

/-- With `capture.limit = 1`: ingest dialog `A`, lock it, ingest dialog `B`. -/
def stLockedOverflow : Storage :=
  runEvents rxNone stLimitOne
    [StoreEvent.sip pInviteA true, StoreEvent.lock "A", StoreEvent.sip pInviteB true]

/-- With `capture.limit = 1`: the store holding dialog `A` unlocked. -/
def stFullA : Storage := (storage_check_sip_packet rxNone stLimitOne pInviteA true).1

/-- Ingesting dialog `B` into the full store when `call_create` fails. -/
def resAllocFail : Storage × Option SipMsg :=
  storage_check_sip_packet rxNone stFullA pInviteB false

/-- A store holding one call that already owns a pre-registered (incomplete)
RTCP stream at `2.2.2.2:9001` — the stream the spec intends an RTCP-only
packet to resolve. -/
def stWithRtcpStream : Storage :=
  { stInit with
    heap := [(0,
      { callid := "Z", xcallid := "", index := 1, locked := false,
        state := CallState.setup,
        msgs := [], xcalls := [],
        streams := [{ sid := 0, callRef := 0, typ := StreamType.rtcp,
                      src := emptyAddr, dst := ⟨"2.2.2.2", 9001⟩,
                      complete := false, fmtcode := 0, pktCount := 0,
                      media := { addrIp := "2.2.2.2", rtpport := 9000,
                                 rtcpport := 9001, fmts := [0] } }] })]
    listIds := [0]
    hids := [("Z", 0)]
    lastIndex := 1, nextId := 1, nextSid := 1 }

/-- A packet carrying an RTCP payload (a sender report, modelled by the
`PACKET_RTCP` slot being filled) and no RTP payload, addressed to the
RTCP stream of `stWithRtcpStream`. -/
def pRtcpOnly : RtpPacketIn :=
  { src := ⟨"1.1.1.1", 9000⟩, dst := ⟨"2.2.2.2", 9001⟩,
    protoRtp := none, protoRtcp := some 200 }

/-- A locked parked call used by the rotation fixtures. -/
def callRotA : SipCall :=
  { callid := "ra", xcallid := "", index := 1, locked := true,
    state := CallState.setup, msgs := [], streams := [], xcalls := [] }

/-- An unlocked call used by the rotation fixtures. -/
def callRotB : SipCall :=
  { callid := "rb", xcallid := "", index := 2, locked := false,
    state := CallState.setup, msgs := [], streams := [], xcalls := [] }

/-- A store holding the locked `callRotA` followed by the unlocked
`callRotB` (which is also in the active list). -/
def stRotAB : Storage :=
  { stInit with
    heap := [(0, callRotA), (1, callRotB)]
    listIds := [0, 1]
    activeIds := [1]
    hids := [("ra", 0), ("rb", 1)]
    lastIndex := 2
    nextId := 2 }

/-- A store whose only call is locked. -/
def stRotLocked : Storage :=
  { stInit with
    heap := [(0, callRotA)]
    listIds := [0]
    hids := [("ra", 0)]
    lastIndex := 1
    nextId := 1 }

/-- A store with a configured match expression (`minvert = false`). -/
def stMatchDrop : Storage :=
  { stInit with
    mopts := { mexpr := some "m", micase := false, minvert := false,
               invite := false, complete := false } }

/-- A store with match expression `magic` and `minvert = true` (spec
scenario 4). -/
def stInvert : Storage :=
  { stInit with
    mopts := { mexpr := some "magic", micase := false, minvert := true,
               invite := false, complete := false } }

/-- A regex oracle: the payload matches iff it equals the pattern. -/
def rxEq : String → String → Bool := fun pat s => pat == s

/-- An INVITE whose payload matches the inverted expression of `stInvert`. -/
def p7match : SipPacketIn := { pInviteA with callid := "m1", payload := "magic" }

/-- An INVITE whose payload does not match the expression of `stInvert`. -/
def p7clean : SipPacketIn := { pInviteA with callid := "m2", payload := "clean" }

/-- A complete RTP stream fixture for the double-count witness. -/
def streamW : RtpStream :=
  { sid := 0, callRef := 0, typ := StreamType.rtp, src := ⟨"5.5.5.5", 1000⟩,
    dst := ⟨"6.6.6.6", 2000⟩, complete := true, fmtcode := 5, pktCount := 0,
    media := { addrIp := "6.6.6.6", rtpport := 2000, rtcpport := 0, fmts := [5] } }

/-- A store holding one call that owns the complete stream `streamW`. -/
def stStreamW : Storage :=
  { stInit with
    heap := [(0, { callid := "W", xcallid := "", index := 1, locked := false,
                   state := CallState.setup, msgs := [], streams := [streamW],
                   xcalls := [] })]
    listIds := [0]
    hids := [("W", 0)]
    lastIndex := 1
    nextId := 1
    nextSid := 1 }

/-- An RTP packet along `streamW` (same endpoints and format). -/
def pRtpW : RtpPacketIn :=
  { src := ⟨"5.5.5.5", 1000⟩, dst := ⟨"6.6.6.6", 2000⟩,
    protoRtp := some 5, protoRtcp := none }

/-- Claim-side characterization: is the call behind `cid` present and
unlocked? -/
def unlockedAt (st : Storage) (cid : Nat) : Bool :=
  match heapGet st cid with
  | some c => !c.locked
  | none => false

/-- Claim-side characterization: the first call in `L`-order whose locked
flag is false. -/
def firstUnlocked (st : Storage) : Option Nat :=
  st.listIds.find? (unlockedAt st)

/-! ### Helper lemmas -/

theorem heapSet_listIds (st : Storage) (cid : Nat) (f : SipCall → SipCall) :
    (heapSet st cid f).listIds = st.listIds := rfl

theorem heapSet_hids (st : Storage) (cid : Nat) (f : SipCall → SipCall) :
    (heapSet st cid f).hids = st.hids := rfl

theorem heapSet_changed (st : Storage) (cid : Nat) (f : SipCall → SipCall) :
    (heapSet st cid f).changed = st.changed := rfl

theorem registerMediaRtp_fields (st : Storage) (cid : Nat) (m : SdpMedia) :
    (registerMediaRtp st cid m).listIds = st.listIds ∧
    (registerMediaRtp st cid m).hids = st.hids ∧
    (registerMediaRtp st cid m).changed = st.changed := by
  unfold registerMediaRtp
  split
  · exact ⟨rfl, rfl, rfl⟩
  · split <;> exact ⟨rfl, rfl, rfl⟩

theorem registerMediaRtcp_fields (st : Storage) (cid : Nat) (m : SdpMedia) :
    (registerMediaRtcp st cid m).listIds = st.listIds ∧
    (registerMediaRtcp st cid m).hids = st.hids ∧
    (registerMediaRtcp st cid m).changed = st.changed := by
  unfold registerMediaRtcp
  split
  · exact ⟨rfl, rfl, rfl⟩
  · split <;> exact ⟨rfl, rfl, rfl⟩

theorem registerMediaSrc_fields (st : Storage) (cid : Nat) (a : Address) (m : SdpMedia) :
    (registerMediaSrc st cid a m).listIds = st.listIds ∧
    (registerMediaSrc st cid a m).hids = st.hids ∧
    (registerMediaSrc st cid a m).changed = st.changed := by
  unfold registerMediaSrc
  split
  · exact ⟨rfl, rfl, rfl⟩
  · split <;> exact ⟨rfl, rfl, rfl⟩

theorem registerMedia_listIds (st : Storage) (cid : Nat) (a : Address) (m : SdpMedia) :
    (registerMedia st cid a m).listIds = st.listIds := by
  unfold registerMedia
  rw [(registerMediaSrc_fields _ _ _ _).1, (registerMediaRtcp_fields _ _ _).1,
    (registerMediaRtp_fields _ _ _).1, heapSet_listIds]

theorem registerMedia_hids (st : Storage) (cid : Nat) (a : Address) (m : SdpMedia) :
    (registerMedia st cid a m).hids = st.hids := by
  unfold registerMedia
  rw [(registerMediaSrc_fields _ _ _ _).2.1, (registerMediaRtcp_fields _ _ _).2.1,
    (registerMediaRtp_fields _ _ _).2.1, heapSet_hids]

theorem registerMedia_changed (st : Storage) (cid : Nat) (a : Address) (m : SdpMedia) :
    (registerMedia st cid a m).changed = st.changed := by
  unfold registerMedia
  rw [(registerMediaSrc_fields _ _ _ _).2.2, (registerMediaRtcp_fields _ _ _).2.2,
    (registerMediaRtp_fields _ _ _).2.2, heapSet_changed]

theorem foldRegister_listIds (cid : Nat) (a : Address) (ms : List SdpMedia) :
    ∀ st : Storage, (ms.foldl (fun st media => registerMedia st cid a media) st).listIds = st.listIds := by
  induction ms with
  | nil => intro st; rfl
  | cons m rest ih => intro st; rw [List.foldl_cons, ih, registerMedia_listIds]

theorem foldRegister_hids (cid : Nat) (a : Address) (ms : List SdpMedia) :
    ∀ st : Storage, (ms.foldl (fun st media => registerMedia st cid a media) st).hids = st.hids := by
  induction ms with
  | nil => intro st; rfl
  | cons m rest ih => intro st; rw [List.foldl_cons, ih, registerMedia_hids]

theorem foldRegister_changed (cid : Nat) (a : Address) (ms : List SdpMedia) :
    ∀ st : Storage, (ms.foldl (fun st media => registerMedia st cid a media) st).changed = st.changed := by
  induction ms with
  | nil => intro st; rfl
  | cons m rest ih => intro st; rw [List.foldl_cons, ih, registerMedia_changed]

theorem register_streams_listIds (st : Storage) (cid : Nat) (a : Address)
    (sdp : Option (List SdpMedia)) :
    (storage_register_streams st cid a sdp).listIds = st.listIds := by
  cases sdp with
  | none => rfl
  | some ms => exact foldRegister_listIds cid a ms st

theorem register_streams_hids (st : Storage) (cid : Nat) (a : Address)
    (sdp : Option (List SdpMedia)) :
    (storage_register_streams st cid a sdp).hids = st.hids := by
  cases sdp with
  | none => rfl
  | some ms => exact foldRegister_hids cid a ms st

theorem register_streams_changed (st : Storage) (cid : Nat) (a : Address)
    (sdp : Option (List SdpMedia)) :
    (storage_register_streams st cid a sdp).changed = st.changed := by
  cases sdp with
  | none => rfl
  | some ms => exact foldRegister_changed cid a ms st

theorem acceptXcall_fields (st : Storage) (cid : Nat) :
    (acceptXcall st cid).listIds = st.listIds ∧
    (acceptXcall st cid).hids = st.hids ∧
    (acceptXcall st cid).changed = st.changed := by
  unfold acceptXcall
  split
  · exact ⟨rfl, rfl, rfl⟩
  · split
    · split <;> exact ⟨rfl, rfl, rfl⟩
    · exact ⟨rfl, rfl, rfl⟩

theorem acceptActive_fields (st : Storage) (cid : Nat) :
    (acceptActive st cid).listIds = st.listIds ∧
    (acceptActive st cid).hids = st.hids ∧
    (acceptActive st cid).changed = st.changed := by
  unfold acceptActive
  split
  · exact ⟨rfl, rfl, rfl⟩
  · split <;> split <;> exact ⟨rfl, rfl, rfl⟩

theorem acceptInvite_fields (st : Storage) (cid : Nat) (p : SipPacketIn) (msg : SipMsg) :
    (acceptInvite st cid p msg).listIds = st.listIds ∧
    (acceptInvite st cid p msg).hids = st.hids ∧
    (acceptInvite st cid p msg).changed = st.changed := by
  unfold acceptInvite
  split
  · exact ⟨rfl, rfl, rfl⟩
  · split
    · refine ⟨?_, ?_, ?_⟩
      · rw [(acceptActive_fields _ _).1, heapSet_listIds, register_streams_listIds]
      · rw [(acceptActive_fields _ _).2.1, heapSet_hids, register_streams_hids]
      · rw [(acceptActive_fields _ _).2.2, heapSet_changed, register_streams_changed]
    · exact ⟨rfl, rfl, rfl⟩

theorem acceptSteps_listIds (st : Storage) (cid : Nat) (p : SipPacketIn) (msg : SipMsg) :
    (acceptSteps st cid p msg).listIds = st.listIds := by
  unfold acceptSteps
  rw [(acceptInvite_fields _ _ _ _).1, heapSet_listIds, heapSet_listIds,
    (acceptXcall_fields _ _).1]

theorem acceptSteps_hids (st : Storage) (cid : Nat) (p : SipPacketIn) (msg : SipMsg) :
    (acceptSteps st cid p msg).hids = st.hids := by
  unfold acceptSteps
  rw [(acceptInvite_fields _ _ _ _).2.1, heapSet_hids, heapSet_hids,
    (acceptXcall_fields _ _).2.1]

theorem insertSortedAux_length (key : Nat → Nat) (cid : Nat) (l : List Nat) :
    (insertSortedAux key cid l).length = l.length + 1 := by
  induction l with
  | nil => rfl
  | cons x xs ih =>
    unfold insertSortedAux
    split
    · simp
    · simp [ih]

theorem processAccepted_snd (st : Storage) (cid : Nat) (p : SipPacketIn) (msg : SipMsg)
    (nc : Bool) : (processAccepted st cid p msg nc).2 = some msg := rfl

theorem processAccepted_changed (st : Storage) (cid : Nat) (p : SipPacketIn) (msg : SipMsg)
    (nc : Bool) : (processAccepted st cid p msg nc).1.changed = true := rfl

theorem processAccepted_listIds_length (st : Storage) (cid : Nat) (p : SipPacketIn)
    (msg : SipMsg) (nc : Bool) :
    (processAccepted st cid p msg nc).1.listIds.length =
      st.listIds.length + (if nc then 1 else 0) := by
  unfold processAccepted
  cases nc with
  | false => simp [acceptSteps_listIds]
  | true => simp [insertSorted, insertSortedAux_length, acceptSteps_listIds]

theorem processAccepted_hids (st : Storage) (cid : Nat) (p : SipPacketIn) (msg : SipMsg)
    (nc : Bool) : (processAccepted st cid p msg nc).1.hids = st.hids := by
  unfold processAccepted
  cases nc with
  | false => simp [acceptSteps_hids]
  | true => simp [acceptSteps_hids]

theorem rotateScan_changed (st : Storage) (l : List Nat) :
    (rotateScan st l).changed = st.changed := by
  induction l with
  | nil => rfl
  | cons cid rest ih =>
    unfold rotateScan
    split
    · exact ih
    · split
      · exact ih
      · rfl

theorem rotateScan_of_find_none (st : Storage) (l : List Nat)
    (h : l.find? (unlockedAt st) = none) : rotateScan st l = st := by
  induction l with
  | nil => rfl
  | cons cid rest ih =>
    rw [List.find?_cons] at h
    unfold rotateScan
    cases hg : heapGet st cid with
    | none =>
      have hu : unlockedAt st cid = false := by unfold unlockedAt; rw [hg]
      rw [hu] at h
      exact ih h
    | some c =>
      have hu : unlockedAt st cid = !c.locked := by unfold unlockedAt; rw [hg]
      cases hl : c.locked with
      | true =>
        rw [hu, hl] at h
        simp only [hl, if_true]
        exact ih h
      | false =>
        rw [hu, hl] at h
        simp at h

theorem unlockedAt_of_heapGet (st : Storage) (cid : Nat) (c : SipCall)
    (hg : heapGet st cid = some c) : unlockedAt st cid = !c.locked := by
  unfold unlockedAt
  rw [hg]

theorem heapGet_isSome_of_unlockedAt (st : Storage) (cid : Nat)
    (h : unlockedAt st cid = true) : (heapGet st cid).isSome = true := by
  unfold unlockedAt at h
  cases hg : heapGet st cid with
  | none => rw [hg] at h; exact absurd h (by simp)
  | some c => rfl

theorem rotateScan_of_find_some (st : Storage) (l : List Nat) (cid : Nat)
    (h : l.find? (unlockedAt st) = some cid) :
    ∀ c, heapGet st cid = some c →
      rotateScan st l =
        { st with
          heap := st.heap.filter (fun e => !(e.1 == cid))
          hids := removeKey st.hids c.callid
          activeIds := st.activeIds.erase cid
          listIds := st.listIds.erase cid } := by
  induction l with
  | nil => exact absurd h (by simp)
  | cons x rest ih =>
    intro c hc
    rw [List.find?_cons] at h
    unfold rotateScan
    cases hg : heapGet st x with
    | none =>
      have hu : unlockedAt st x = false := by unfold unlockedAt; rw [hg]
      rw [hu] at h
      exact ih h c hc
    | some cx =>
      have hu : unlockedAt st x = !cx.locked := unlockedAt_of_heapGet st x cx hg
      cases hl : cx.locked with
      | true =>
        rw [hu, hl] at h
        simp only [hl, if_true]
        exact ih h c hc
      | false =>
        rw [hu, hl] at h
        have h2 : some x = some cid := h
        have hx : x = cid := by injection h2
        subst hx
        have : cx = c := by rw [hg] at hc; injection hc
        subst this
        simp only [hl]
        rfl

theorem storage_calls_rotate_of_none (st : Storage)
    (h : firstUnlocked st = none) : storage_calls_rotate st = st :=
  rotateScan_of_find_none st st.listIds h

theorem storage_calls_rotate_of_some (st : Storage) (cid : Nat) (c : SipCall)
    (h : firstUnlocked st = some cid) (hc : heapGet st cid = some c) :
    storage_calls_rotate st =
      { st with
        heap := st.heap.filter (fun e => !(e.1 == cid))
        hids := removeKey st.hids c.callid
        activeIds := st.activeIds.erase cid
        listIds := st.listIds.erase cid } :=
  rotateScan_of_find_some st st.listIds cid h c hc

theorem rotate_count_le (st : Storage) :
    storage_calls_count (storage_calls_rotate st) ≤ storage_calls_count st := by
  cases h : firstUnlocked st with
  | none => rw [storage_calls_rotate_of_none st h]
  | some cid =>
    have hs := heapGet_isSome_of_unlockedAt st cid (List.find?_some h)
    cases hc : heapGet st cid with
    | none => rw [hc] at hs; exact absurd hs (by simp)
    | some c =>
      rw [storage_calls_rotate_of_some st cid c h hc]
      exact List.length_erase_le _ _

theorem rotate_count_of_unlocked (st : Storage) (cid : Nat)
    (hmem : cid ∈ st.listIds) (hu : unlockedAt st cid = true) :
    storage_calls_count (storage_calls_rotate st) + 1 = storage_calls_count st := by
  have hex : ∃ x, x ∈ st.listIds ∧ unlockedAt st x = true := ⟨cid, hmem, hu⟩
  rw [← List.find?_isSome] at hex
  cases hf : firstUnlocked st with
  | none => unfold firstUnlocked at hf; rw [hf] at hex; exact absurd hex (by simp)
  | some y =>
    have hsy := heapGet_isSome_of_unlockedAt st y (List.find?_some hf)
    cases hc : heapGet st y with
    | none => rw [hc] at hsy; exact absurd hsy (by simp)
    | some c =>
      have hymem : y ∈ st.listIds := List.mem_of_find?_eq_some hf
      rw [storage_calls_rotate_of_some st y c hf hc]
      unfold storage_calls_count
      simp only
      rw [List.length_erase_of_mem hymem]
      have : 1 ≤ st.listIds.length := List.length_pos.mpr (List.ne_nil_of_mem hymem)
      omega


theorem find_hidsInsert (h : List (String × Nat)) (k : String) (v : Nat) :
    (hidsInsert h k v).find? (fun e => e.1 == k) = some (k, v) := by
  unfold hidsInsert
  induction h with
  | nil => simp [removeKey]
  | cons e rest ih =>
    unfold removeKey at ih ⊢
    by_cases he : e.1 = k
    · simpa [List.filter_cons, he] using ih
    · simpa [List.filter_cons, List.find?_cons, he] using ih

/-- C1: the claimed invariant fails in the code.  After ingesting a first
INVITE into a fresh store, the new call is in the ordered list and the
Call-ID index maps its id to it, and it is active (`call_is_active`), yet
the active list is still empty: `storage_check_sip_packet` appends to
`calls.active` only when the call is ALREADY there (storage.c lines
197-200 lack the negation), so a call that just became active is never
inserted, refuting `c ∈ A ⇔ c.is_active()`. -/
theorem c1_active_list_invariant_broken :
    (heapGet stAfterX 0).map call_is_active = some true ∧
    storage_call_is_active stAfterX 0 = false ∧
    stAfterX.listIds = [0] ∧
    storage_find_by_callid stAfterX "X" = some 0 := by decide

/-- C2 counterexample: with `capture.limit = 1`, ingesting dialog `A`,
locking it, and ingesting dialog `B` leaves TWO calls in the ordered list
and dialog `B` admitted, refuting both `|L| ≤ capture.limit` and "the new
call is not admitted": rotation removes nothing when every call is locked,
but `storage_check_sip_packet` creates and inserts the new call anyway. -/
theorem c2_limit_counterexample :
    stLimitOne.capture.limit = 1 ∧
    storage_calls_count stLockedOverflow = 2 ∧
    storage_find_by_callid stLockedOverflow "B" = some 1 := by decide

/-- C3 counterexample: when call creation fails (`call_create` returning
NULL, storage.c line 161) the message is dropped and `none` returned, but
the rotation already performed at line 158 persists: starting from a full
store (limit 1, one unlocked call `A`), the failed ingestion of dialog `B`
leaves the ordered list empty and `A` gone from the Call-ID index, so the
drop did NOT leave `L`, `A`, `H` as before. -/
theorem c3_drop_counterexample :
    resAllocFail.2 = none ∧
    stFullA.listIds = [0] ∧
    resAllocFail.1.listIds = [] ∧
    storage_find_by_callid stFullA "A" = some 0 ∧
    storage_find_by_callid resAllocFail.1 "A" = none := by decide

/-- C4: for every packet whose `PACKET_RTP` proto slot is empty,
`storage_check_rtp_packet` returns `none` and leaves the store untouched —
whatever the `PACKET_RTCP` slot holds — because the `rtcp` local reads the
`PACKET_RTP` slot (storage.c line 321): an RTCP-only packet never resolves
any stream and its packet is never added, contradicting the claimed
RTCP-stream resolution. -/
theorem c4_rtcp_only_never_resolved (st : Storage) (p : RtpPacketIn)
    (h : p.protoRtp = none) :
    storage_check_rtp_packet st p = (st, none) := by
  unfold storage_check_rtp_packet
  rw [h]

/-- C4 witness: the failing input — a packet carrying only an RTCP payload,
addressed to a store that holds exactly the matching pre-registered RTCP
stream — is dropped with the store unchanged. -/
theorem c4_rtcp_only_never_resolved_witness :
    pRtcpOnly.protoRtp = none ∧
    storage_check_rtp_packet stWithRtcpStream pRtcpOnly = (stWithRtcpStream, none) :=
  ⟨rfl, c4_rtcp_only_never_resolved stWithRtcpStream pRtcpOnly rfl⟩

/-- C5: the RTCP stream of clause (ii) is never created.  Ingesting an
INVITE whose SDP advertises `1.2.3.4:8000` with RTCP port 9000 yields only
the two RTP streams (i) and (iii): the guard of the RTCP block (storage.c
line 420) re-checks the same `(emptyaddr, media->address)` key as the RTP
block at line 412, which the just-created RTP stream now satisfies, so the
RTCP block is dead code; no stream with `dst.port = 9000` (nor
`rtpport + 1`) exists, and the media descriptor was appended to the
message. -/
theorem c5_rtcp_stream_never_created :
    (heapGet stAfterY 0).map (fun c => c.streams.map (fun s => (s.typ, s.src, s.dst))) =
      some [(StreamType.rtp, emptyAddr, ⟨"1.2.3.4", 8000⟩),
            (StreamType.rtp, emptyAddr, ⟨"9.9.9.9", 8000⟩)] ∧
    (heapGet stAfterY 0).map (fun c => c.streams.any (fun s => s.typ == StreamType.rtcp)) =
      some false ∧
    (heapGet stAfterY 0).map (fun c => c.streams.any (fun s => s.dst.port == 9000)) =
      some false ∧
    (heapGet stAfterY 0).map (fun c => c.msgs.map (fun m => m.medias.length)) = some [1] := by
  decide

/-- C6 counterexample: after the first RTP packet of spec scenario 3
(`10.0.0.2:24000 → 10.0.0.1:16000`, PT 0, SDP having advertised
`10.0.0.1:16000`) the call holds NO stream with source `10.0.0.1:16000`
and destination `10.0.0.2:24000`: the reverse stream's destination comes
from `stream_create` (the media's advertised address), never from the
observed source, so the claimed pair of swapped-endpoint streams does not
exist. -/
theorem c6_swapped_reverse_counterexample :
    (heapGet stAfterRtp 0).map (fun c => c.streams.any (fun s =>
      s.src == ⟨"10.0.0.1", 16000⟩ && s.dst == ⟨"10.0.0.2", 24000⟩)) = some false := by
  decide

/-- C6 amended: in scenario 3 the resolved stream is completed with the
packet source and given the packet's format, and — no opposite-direction
stream existing — a reverse stream is created, completed with `S.dst` and
given the same format; but its destination is the media's advertised
address, so the call ends up with forward `10.0.0.2:24000 → 10.0.0.1:16000`
(complete, PT 0, two packets counted) and reverse
`10.0.0.1:16000 → 10.0.0.1:16000` (complete, PT 0), beside the untouched
pre-registered stream towards the signaling source. -/
theorem c6_reverse_stream_amended :
    (heapGet stAfterRtp 0).map (fun c => c.streams.map (fun s =>
      (s.src, s.dst, s.complete, s.fmtcode, s.pktCount))) =
    some [(⟨"10.0.0.2", 24000⟩, ⟨"10.0.0.1", 16000⟩, true, 0, 2),
          (emptyAddr, ⟨"10.0.0.9", 16000⟩, false, 0, 0),
          (⟨"10.0.0.1", 16000⟩, ⟨"10.0.0.1", 16000⟩, true, 0, 0)] := by
  decide

theorem find_isSome_processAccepted (hlist : List (String × Nat)) (stx : Storage)
    (cid2 : Nat) (p : SipPacketIn) (m : SipMsg) (nc : Bool) (k : String) (v : Nat)
    (hh : stx.hids = hidsInsert hlist k v) :
    (storage_find_by_callid (processAccepted stx cid2 p m nc).1 k).isSome = true := by
  unfold storage_find_by_callid
  rw [processAccepted_hids, hh, find_hidsInsert]
  rfl

theorem processAccepted_snd_isSome (st : Storage) (cid : Nat) (p : SipPacketIn)
    (msg : SipMsg) (nc : Bool) : (processAccepted st cid p msg nc).2.isSome = true := by
  rw [processAccepted_snd]
  rfl

theorem ingest_changed_cases (rx : String → String → Bool) (st : Storage)
    (p : SipPacketIn) (ok : Bool) :
    ((storage_check_sip_packet rx st p ok).1.changed = true ∧
      (storage_check_sip_packet rx st p ok).2.isSome = true) ∨
    ((storage_check_sip_packet rx st p ok).1.changed = st.changed ∧
      (storage_check_sip_packet rx st p ok).2 = none) := by
  unfold storage_check_sip_packet
  cases hfind : storage_find_by_callid st p.callid with
  | some cid =>
    left
    exact ⟨processAccepted_changed _ _ _ _ _, processAccepted_snd_isSome _ _ _ _ _⟩
  | none =>
    simp only
    split
    · right; exact ⟨rfl, rfl⟩
    · split
      · right; exact ⟨rfl, rfl⟩
      · split
        · right; exact ⟨rfl, rfl⟩
        · split
          · right
            refine ⟨?_, rfl⟩
            show (if (st.capture.limit == storage_calls_count st) = true
                  then storage_calls_rotate st else st).changed = st.changed
            split
            · exact rotateScan_changed st st.listIds
            · rfl
          · left
            exact ⟨processAccepted_changed _ _ _ _ _, processAccepted_snd_isSome _ _ _ _ _⟩

/-- C8: `storage_calls_rotate` removes exactly the first call in `L`-order
whose locked flag is false — from the heap, the Call-ID hash, the active
list (if present) and the call list — and when every call is locked it
leaves the store unchanged, hence is idempotent there.  `firstUnlocked` is
the claim-side characterization `L.find? (not locked)`. -/
theorem c8_rotate_removes_first_unlocked (st : Storage) :
    ((∀ cid ∈ st.listIds, unlockedAt st cid = false) →
      storage_calls_rotate st = st ∧
      storage_calls_rotate (storage_calls_rotate st) = storage_calls_rotate st) ∧
    (∀ cid c, firstUnlocked st = some cid → heapGet st cid = some c →
      storage_calls_rotate st =
        { st with
          heap := st.heap.filter (fun e => !(e.1 == cid))
          hids := removeKey st.hids c.callid
          activeIds := st.activeIds.erase cid
          listIds := st.listIds.erase cid }) := by
  constructor
  · intro hall
    have hnone : firstUnlocked st = none := by
      unfold firstUnlocked
      rw [List.find?_eq_none]
      intro x hx
      rw [hall x hx]
      simp
    have h1 := storage_calls_rotate_of_none st hnone
    exact ⟨h1, by rw [h1, h1]⟩
  · intro cid c hf hc
    exact storage_calls_rotate_of_some st cid c hf hc

/-- C8 witness: rotating the all-locked store is the identity, and rotating
the store `[ra(locked), rb(unlocked)]` removes exactly `rb` from heap,
hash, active list and call list. -/
theorem c8_rotate_removes_first_unlocked_witness :
    storage_calls_rotate stRotLocked = stRotLocked ∧
    storage_calls_rotate stRotAB =
      { stRotAB with
        heap := stRotAB.heap.filter (fun e => !(e.1 == 1))
        hids := removeKey stRotAB.hids callRotB.callid
        activeIds := stRotAB.activeIds.erase 1
        listIds := stRotAB.listIds.erase 1 } :=
  ⟨((c8_rotate_removes_first_unlocked stRotLocked).1 (by decide)).1,
   (c8_rotate_removes_first_unlocked stRotAB).2 1 callRotB (by decide) (by decide)⟩

/-- C9: `storage_calls_changed` is read-and-reset: it returns the current
flag and clears it, so the second of two consecutive reads returns false;
an ingestion that returns a message (and has therefore mutated the store)
leaves the flag true, and a dropped ingestion leaves it as it was — so the
flag is returned true at most once per mutating ingestion. -/
theorem c9_calls_changed_read_and_reset (st : Storage) :
    (storage_calls_changed st).2 = st.changed ∧
    (storage_calls_changed st).1.changed = false ∧
    (storage_calls_changed (storage_calls_changed st).1).2 = false ∧
    (∀ rx p ok, (storage_check_sip_packet rx st p ok).2.isSome = true →
      (storage_check_sip_packet rx st p ok).1.changed = true) ∧
    (∀ rx p ok, (storage_check_sip_packet rx st p ok).2 = none →
      (storage_check_sip_packet rx st p ok).1.changed = st.changed) := by
  refine ⟨rfl, rfl, rfl, ?_, ?_⟩
  · intro rx p ok hsome
    cases ingest_changed_cases rx st p ok with
    | inl h => exact h.1
    | inr h => rw [h.2] at hsome; exact absurd hsome (by simp)
  · intro rx p ok hnone
    cases ingest_changed_cases rx st p ok with
    | inl h => rw [hnone] at h; exact absurd h.2 (by simp)
    | inr h => exact h.1

/-- C9 witness: the read-and-reset equations at a concrete store, the true
flag after an accepted ingestion, and the preserved flag after a dropped
one. -/
theorem c9_calls_changed_read_and_reset_witness :
    (storage_calls_changed stAfterX).2 = stAfterX.changed ∧
    (storage_calls_changed (storage_calls_changed stAfterX).1).2 = false ∧
    (storage_check_sip_packet rxNone stInit pInviteA true).1.changed = true ∧
    (storage_check_sip_packet rxNone stMatchDrop pInviteA true).1.changed = stMatchDrop.changed :=
  ⟨(c9_calls_changed_read_and_reset stAfterX).1,
   (c9_calls_changed_read_and_reset stAfterX).2.2.1,
   (c9_calls_changed_read_and_reset stInit).2.2.2.1 rxNone pInviteA true (by decide),
   (c9_calls_changed_read_and_reset stMatchDrop).2.2.2.2 rxNone pInviteA true (by decide)⟩

/-- C2 amended: a single ingestion keeps `|L| ≤ capture.limit` provided the
store already satisfied the bound and, whenever the list is exactly full,
some listed call is unlocked (so that the rotation performed at admission
can evict one).  Without an unlocked call the new call is still admitted
and the bound breaks (see the counterexample). -/
theorem c2_limit_amended (rx : String → String → Bool) (st : Storage) (p : SipPacketIn)
    (ok : Bool)
    (hle : storage_calls_count st ≤ st.capture.limit)
    (hfull : storage_calls_count st = st.capture.limit →
      ∃ cid ∈ st.listIds, unlockedAt st cid = true) :
    storage_calls_count (storage_check_sip_packet rx st p ok).1 ≤ st.capture.limit := by
  unfold storage_check_sip_packet
  cases hfind : storage_find_by_callid st p.callid with
  | some cid =>
    have key : ∀ m, ((processAccepted st cid p m false).1).listIds.length ≤ st.capture.limit := by
      intro m
      rw [processAccepted_listIds_length]
      simpa using hle
    exact key _
  | none =>
    simp only
    split
    · exact hle
    · split
      · exact hle
      · split
        · exact hle
        · have key : ∀ (stx : Storage) (cid2 : Nat) (m : SipMsg),
              stx.listIds.length + 1 ≤ st.capture.limit →
              ((processAccepted stx cid2 p m true).1).listIds.length ≤ st.capture.limit := by
            intro stx cid2 m h
            rw [processAccepted_listIds_length]
            simpa using h
          split
          · -- call_create failed: the store is the (possibly rotated) one
            by_cases hrot : (st.capture.limit == storage_calls_count st) = true
            · rw [if_pos hrot]
              exact le_trans (rotate_count_le st) hle
            · rw [if_neg hrot]
              exact hle
          · by_cases hrot : (st.capture.limit == storage_calls_count st) = true
            · have hcnt : storage_calls_count st = st.capture.limit := (beq_iff_eq.mp hrot).symm
              obtain ⟨cidu, hmem, hu⟩ := hfull hcnt
              have h2 := rotate_count_of_unlocked st cidu hmem hu
              have hbound : (if (st.capture.limit == storage_calls_count st) = true
                  then storage_calls_rotate st else st).listIds.length + 1 ≤ st.capture.limit := by
                rw [if_pos hrot]
                unfold storage_calls_count at h2 hcnt
                omega
              exact key _ _ _ hbound
            · have hne : storage_calls_count st ≠ st.capture.limit :=
                fun he => hrot (beq_iff_eq.mpr he.symm)
              have hbound : (if (st.capture.limit == storage_calls_count st) = true
                  then storage_calls_rotate st else st).listIds.length + 1 ≤ st.capture.limit := by
                rw [if_neg hrot]
                unfold storage_calls_count at hle hne
                omega
              exact key _ _ _ hbound

/-- C2 amended witness: the full store whose single call `A` is unlocked
stays within its limit 1 when dialog `B` is ingested (A is rotated out). -/
theorem c2_limit_amended_witness :
    storage_calls_count stFullA ≤ stFullA.capture.limit ∧
    storage_calls_count (storage_check_sip_packet rxNone stFullA pInviteB true).1 ≤
      stFullA.capture.limit :=
  ⟨by decide,
   c2_limit_amended rxNone stFullA pInviteB true (by decide)
     (fun _ => ⟨0, by decide, by decide⟩)⟩

/-- C3 amended: for a packet with a fresh Call-ID, a drop by the match
expression, the invite-only check or the complete-only check returns the
store exactly as it was (and no message), since those checks precede every
mutation; a drop by call-creation failure also returns no message, but
hands back the store AFTER the conditional rotation that storage.c
performs at line 158, which is not undone. -/
theorem c3_drop_amended (rx : String → String → Bool) (st : Storage) (p : SipPacketIn)
    (ok : Bool)
    (hfresh : storage_find_by_callid st p.callid = none) :
    (storage_check_match_expr rx st p.payload = false →
      storage_check_sip_packet rx st p ok = (st, none)) ∧
    (st.mopts.invite = true → p.reqresp ≠ SIP_METHOD_INVITE →
      storage_check_sip_packet rx st p ok = (st, none)) ∧
    (st.mopts.complete = true → p.reqresp > SIP_METHOD_MESSAGE →
      storage_check_sip_packet rx st p ok = (st, none)) ∧
    (ok = false →
      storage_check_match_expr rx st p.payload = true →
      ¬(st.mopts.invite = true ∧ p.reqresp ≠ SIP_METHOD_INVITE) →
      ¬(st.mopts.complete = true ∧ p.reqresp > SIP_METHOD_MESSAGE) →
      storage_check_sip_packet rx st p ok =
        (if (st.capture.limit == storage_calls_count st) = true
         then storage_calls_rotate st else st, none)) := by
  unfold storage_check_sip_packet
  simp only [hfresh]
  refine ⟨?_, ?_, ?_, ?_⟩
  · intro h
    rw [if_pos (by rw [h]; rfl : (!storage_check_match_expr rx st p.payload) = true)]
  · intro h1 h2
    split
    · rfl
    · rw [if_pos (by rw [h1]; simp [h2] :
        (st.mopts.invite && decide (p.reqresp ≠ SIP_METHOD_INVITE)) = true)]
  · intro h1 h2
    split
    · rfl
    · split
      · rfl
      · rw [if_pos (by rw [h1]; simp [h2] :
          (st.mopts.complete && decide (p.reqresp > SIP_METHOD_MESSAGE)) = true)]
  · intro hok hmatch hninv hncomp
    have h1 : ¬((!storage_check_match_expr rx st p.payload) = true) := by simp [hmatch]
    have h2 : ¬((st.mopts.invite && decide (p.reqresp ≠ SIP_METHOD_INVITE)) = true) := by
      intro hcontra
      rw [Bool.and_eq_true] at hcontra
      exact hninv ⟨hcontra.1, of_decide_eq_true hcontra.2⟩
    have h3 : ¬((st.mopts.complete && decide (p.reqresp > SIP_METHOD_MESSAGE)) = true) := by
      intro hcontra
      rw [Bool.and_eq_true] at hcontra
      exact hncomp ⟨hcontra.1, of_decide_eq_true hcontra.2⟩
    rw [if_neg h1, if_neg h2, if_neg h3, hok,
      if_pos (show (!false) = true from rfl)]

/-- C3 amended witness: a non-matching payload is dropped with the store
unchanged, and a creation failure on the full store hands back the rotated
store. -/
theorem c3_drop_amended_witness :
    storage_check_sip_packet rxNone stMatchDrop pInviteA true = (stMatchDrop, none) ∧
    storage_check_sip_packet rxNone stFullA pInviteB false =
      (if (stFullA.capture.limit == storage_calls_count stFullA) = true
       then storage_calls_rotate stFullA else stFullA, none) :=
  ⟨(c3_drop_amended rxNone stMatchDrop pInviteA true (by decide)).1 (by decide),
   (c3_drop_amended rxNone stFullA pInviteB false (by decide)).2.2.2 rfl (by decide)
     (by decide) (by decide)⟩

/-- C7: with no configured expression every payload passes; with an
expression, a payload is accepted iff (it matches) XOR `minvert`; hence
with `minvert = true` a first message whose payload matches the expression
is dropped with the store unchanged and creates no call, while a first
INVITE whose payload does not match is accepted and its Call-ID indexed. -/
theorem c7_match_invert (rx : String → String → Bool) (st : Storage) :
    (st.mopts.mexpr = none → ∀ payload, storage_check_match_expr rx st payload = true) ∧
    (∀ e payload, st.mopts.mexpr = some e →
      storage_check_match_expr rx st payload = Bool.xor (rx e payload) st.mopts.minvert) ∧
    (∀ p ok e, st.mopts.mexpr = some e → st.mopts.minvert = true →
      storage_find_by_callid st p.callid = none → rx e p.payload = true →
      storage_check_sip_packet rx st p ok = (st, none)) ∧
    (∀ p e, st.mopts.mexpr = some e → st.mopts.minvert = true →
      storage_find_by_callid st p.callid = none → rx e p.payload = false →
      p.reqresp = SIP_METHOD_INVITE →
      (storage_check_sip_packet rx st p true).2.isSome = true ∧
      (storage_find_by_callid (storage_check_sip_packet rx st p true).1 p.callid).isSome = true) := by
  refine ⟨?_, ?_, ?_, ?_⟩
  · intro h payload
    unfold storage_check_match_expr
    rw [h]
  · intro e payload h
    unfold storage_check_match_expr
    rw [h]
    cases hr : rx e payload <;> cases hv : st.mopts.minvert <;> simp [hr, hv]
  · intro p ok e hm hv hfresh hrx
    have hc : storage_check_match_expr rx st p.payload = false := by
      unfold storage_check_match_expr
      rw [hm]
      simp [hrx, hv]
    unfold storage_check_sip_packet
    simp only [hfresh]
    rw [if_pos (by rw [hc]; rfl : (!storage_check_match_expr rx st p.payload) = true)]
  · intro p e hm hv hfresh hrx hreq
    have hc : storage_check_match_expr rx st p.payload = true := by
      unfold storage_check_match_expr
      rw [hm]
      simp [hrx, hv]
    have h1 : ¬((!storage_check_match_expr rx st p.payload) = true) := by simp [hc]
    have h2 : ¬((st.mopts.invite && decide (p.reqresp ≠ SIP_METHOD_INVITE)) = true) := by
      intro hcontra
      rw [Bool.and_eq_true] at hcontra
      exact (of_decide_eq_true hcontra.2) hreq
    have h3 : ¬((st.mopts.complete && decide (p.reqresp > SIP_METHOD_MESSAGE)) = true) := by
      intro hcontra
      rw [Bool.and_eq_true] at hcontra
      have hgt := of_decide_eq_true hcontra.2
      rw [hreq] at hgt
      exact absurd hgt (by decide)
    unfold storage_check_sip_packet
    simp only [hfresh]
    rw [if_neg h1, if_neg h2, if_neg h3]
    constructor
    · exact processAccepted_snd_isSome _ _ _ _ _
    · exact find_isSome_processAccepted _ _ _ _ _ _ _ _ rfl

/-- C7 witness: spec scenario 4 with expression `magic` inverted — the
matching INVITE is dropped with the store unchanged, the non-matching one
is accepted and indexed; plus the XOR table at the fixture. -/
theorem c7_match_invert_witness :
    storage_check_sip_packet rxEq stInvert p7match true = (stInvert, none) ∧
    (storage_check_sip_packet rxEq stInvert p7clean true).2.isSome = true ∧
    (storage_find_by_callid (storage_check_sip_packet rxEq stInvert p7clean true).1
      "m2").isSome = true ∧
    storage_check_match_expr rxEq stInvert "magic" =
      Bool.xor (rxEq "magic" "magic") stInvert.mopts.minvert :=
  ⟨(c7_match_invert rxEq stInvert).2.2.1 p7match true "magic" rfl rfl (by decide) (by decide),
   ((c7_match_invert rxEq stInvert).2.2.2 p7clean "magic" rfl rfl (by decide) (by decide) rfl).1,
   ((c7_match_invert rxEq stInvert).2.2.2 p7clean "magic" rfl rfl (by decide) (by decide) rfl).2,
   (c7_match_invert rxEq stInvert).2.1 "magic" "magic" rfl⟩

theorem find_map_key (g : Nat × SipCall → Nat × SipCall) (hg : ∀ e, (g e).1 = e.1)
    (h : List (Nat × SipCall)) (cid : Nat) :
    (h.map g).find? (fun e => e.1 == cid) = (h.find? (fun e => e.1 == cid)).map g := by
  induction h with
  | nil => rfl
  | cons e rest ih =>
    cases he : (e.1 == cid) <;> simp [List.find?_cons, hg, he, ih]

theorem heapGet_updStream (st : Storage) (sid : Nat) (f : RtpStream → RtpStream) (cid : Nat) :
    heapGet (updStream st sid f) cid =
      (heapGet st cid).map (fun c =>
        { c with streams := c.streams.map (fun s => if s.sid == sid then f s else s) }) := by
  unfold heapGet updStream
  rw [show ({ st with
        heap := st.heap.map (fun e =>
          (e.1, { e.2 with
                  streams := e.2.streams.map (fun s => if s.sid == sid then f s else s) })) } :
      Storage).heap =
    st.heap.map (fun e =>
      (e.1, { e.2 with
              streams := e.2.streams.map (fun s => if s.sid == sid then f s else s) })) from rfl]
  rw [find_map_key (fun e =>
    (e.1, { e.2 with streams := e.2.streams.map (fun s => if s.sid == sid then f s else s) }))
    (fun e => rfl)]
  cases st.heap.find? (fun e => e.1 == cid) <;> rfl

theorem storageStreams_updStream (st : Storage) (sid : Nat) (f : RtpStream → RtpStream) :
    storageStreams (updStream st sid f) =
      (storageStreams st).map (fun s => if s.sid == sid then f s else s) := by
  unfold storageStreams
  have hl : (updStream st sid f).listIds = st.listIds := rfl
  rw [hl]
  generalize st.listIds = l
  induction l with
  | nil => rfl
  | cons cid rest ih =>
    simp only [List.filterMap_cons]
    rw [heapGet_updStream]
    cases hg : heapGet st cid with
    | none => simpa using ih
    | some c =>
      simp only [Option.map_some']
      simp only [List.map_cons, List.flatten_cons, List.map_append]
      rw [ih]

theorem find_pred_map (l : List RtpStream) (sid : Nat) (f : RtpStream → RtpStream)
    (hf : ∀ s, (f s).sid = s.sid) :
    (l.map (fun s => if s.sid == sid then f s else s)).find? (fun s => s.sid == sid) =
      (l.find? (fun s => s.sid == sid)).map (fun s => if s.sid == sid then f s else s) := by
  induction l with
  | nil => rfl
  | cons t rest ih =>
    by_cases h : (t.sid == sid) = true
    · have hEq : t.sid = sid := beq_iff_eq.mp h
      simp [hEq, hf]
    · have hEq : ¬ t.sid = sid := fun he => h (beq_iff_eq.mpr he)
      simpa [hEq, List.find?_map] using ih

theorem getStream_updStream (st : Storage) (sid : Nat) (f : RtpStream → RtpStream)
    (hf : ∀ s, (f s).sid = s.sid) (s : RtpStream) (h : getStream st sid = some s) :
    getStream (updStream st sid f) sid = some (f s) := by
  unfold getStream at h ⊢
  have hp := List.find?_some h
  have hs : (s.sid == sid) = true := hp
  rw [storageStreams_updStream, find_pred_map _ _ _ hf, h]
  simp [hs]
  intro hne
  exact absurd (beq_iff_eq.mp hs) hne

theorem stream_complete_sid (s : RtpStream) (a : Address) :
    (stream_complete s a).sid = s.sid := by
  unfold stream_complete
  split <;> rfl

theorem double_count (s : RtpStream) (a : Address) :
    (stream_add_packet (stream_complete (stream_add_packet s) a)).pktCount = s.pktCount + 2 := by
  unfold stream_add_packet stream_complete
  split <;> rfl

/-- C10: for every packet whose `PACKET_RTP` slot carries format `f` and
whose resolution phase (storage.c lines 256-314) yields stream `sid` in
store `st1`, `storage_check_rtp_packet` adds the packet to that stream
TWICE — once at line 317 and once more at line 325, because the `rtcp`
local re-reads the `PACKET_RTP` slot and is therefore non-null exactly
when the RTP payload is — re-completing the stream with the packet source
in between, so the stream's packet counter ends at its post-resolution
value plus two for this single packet. -/
theorem c10_rtp_packet_double_counted (st st1 : Storage) (p : RtpPacketIn) (f sid : Nat)
    (hr : p.protoRtp = some f)
    (hres : rtpResolvePhase st p.src p.dst f = some (st1, sid)) :
    storage_check_rtp_packet st p =
      (updStream (updStream (updStream st1 sid stream_add_packet) sid
        (fun s => stream_complete s p.src)) sid stream_add_packet, some sid) ∧
    (∀ s, getStream st1 sid = some s →
      getStream (storage_check_rtp_packet st p).1 sid =
        some (stream_add_packet (stream_complete (stream_add_packet s) p.src)) ∧
      (stream_add_packet (stream_complete (stream_add_packet s) p.src)).pktCount =
        s.pktCount + 2) := by
  have heq : storage_check_rtp_packet st p =
      (updStream (updStream (updStream st1 sid stream_add_packet) sid
        (fun s => stream_complete s p.src)) sid stream_add_packet, some sid) := by
    unfold storage_check_rtp_packet
    simp only [hr, hres]
  refine ⟨heq, ?_⟩
  intro s hs
  refine ⟨?_, double_count s p.src⟩
  rw [heq]
  have g1 := getStream_updStream st1 sid stream_add_packet (fun _ => rfl) s hs
  have g2 := getStream_updStream _ sid (fun s => stream_complete s p.src)
    (fun s => stream_complete_sid s p.src) _ g1
  exact getStream_updStream _ sid stream_add_packet (fun _ => rfl) _ g2

/-- C10 witness: one RTP packet along the already-complete fixture stream
leaves its counter at 2. -/
theorem c10_rtp_packet_double_counted_witness :
    (storage_check_rtp_packet stStreamW pRtpW).2 = some 0 ∧
    getStream (storage_check_rtp_packet stStreamW pRtpW).1 0 =
      some (stream_add_packet (stream_complete (stream_add_packet streamW) pRtpW.src)) ∧
    (stream_add_packet (stream_complete (stream_add_packet streamW) pRtpW.src)).pktCount =
      streamW.pktCount + 2 := by
  have h := c10_rtp_packet_double_counted stStreamW stStreamW pRtpW 5 0 rfl (by decide)
  exact ⟨by rw [h.1], (h.2 streamW (by decide)).1, (h.2 streamW (by decide)).2⟩

end Sngrep
